import Mathlib

/-!
Shallow embedding of the `turbo-response` TypeScript library
(`src/TurboResponse.ts` and the `TurboException` class) in Lean 4,
together with theorems settling the specification claims.

Modelling conventions:
* The TypeScript `unknown` error type becomes a type parameter `E`.
* `undefined` optional fields become `Option`.
* A `Fail<T>` carries no `T` payload; the "reinterpretation at a new type
  parameter" performed by `r as unknown as Fail<R>` is modelled by the
  `Fail E` record being independent of `T`: the very same record appears
  under the new type.
* Host-language exceptions ("raw throw / rejection") are modelled with
  `Except X`: a caller-supplied function that may throw has the type
  `T → Except X α`, and a combinator body is the monadic translation of
  the TypeScript source, which contains no try/catch.
-/

namespace Turbo

/-- The `Success<T>` interface: `_tag: 'Success'` plus payload and metadata. -/
structure Success (T : Type) where
  result : T
  title : Option String
  message : Option String
deriving DecidableEq, Repr

/-- The `Fail<_T>` interface: `_tag: 'Fail'` plus error and metadata.
It does not depend on the phantom type parameter `_T`. -/
structure Fail (E : Type) where
  error : E
  stackTrace : Option String
  title : Option String
  message : Option String
deriving DecidableEq, Repr

/-- `TurboResponse<T> = Success<T> | Fail<T>`, discriminated by `_tag`.
The constructor is the tag. -/
inductive TurboResponse (E T : Type) where
  | success : Success T → TurboResponse E T
  | fail : Fail E → TurboResponse E T
deriving DecidableEq, Repr

namespace TurboResponse

/-- `isSuccess(r)`: the `r._tag === 'Success'` test. -/
def isSuccess : TurboResponse E T → Bool
  | .success _ => true
  | .fail _ => false

/-- `isFail(r)`: the `r._tag === 'Fail'` test. -/
def isFail : TurboResponse E T → Bool
  | .success _ => false
  | .fail _ => true

/-- `getResult(r)`: `isSuccess(r) ? r.result : undefined`. -/
def getResult : TurboResponse E T → Option T
  | .success s => some s.result
  | .fail _ => none

/-- `getError(r)`: `isFail(r) ? r.error : undefined`. -/
def getError : TurboResponse E T → Option E
  | .success _ => none
  | .fail f => some f.error

/-- `getTitle(r)`: reads `r.title` on either variant. -/
def getTitle : TurboResponse E T → Option String
  | .success s => s.title
  | .fail f => f.title

/-- `getMessage(r)`: reads `r.message` on either variant. -/
def getMessage : TurboResponse E T → Option String
  | .success s => s.message
  | .fail f => f.message

/-- `mapSuccess(r, fn)`:
`isSuccess(r) ? success(fn(r.result), r.title, r.message) : r as Fail<R>`. -/
def mapSuccess : TurboResponse E T → (T → R) → TurboResponse E R
  | .success s, fn => .success ⟨fn s.result, s.title, s.message⟩
  | .fail f, _ => .fail f

/-- `andThen(r, fn)`: `isSuccess(r) ? fn(r.result) : r as Fail<R>`. -/
def andThen : TurboResponse E T → (T → TurboResponse E R) → TurboResponse E R
  | .success s, fn => fn s.result
  | .fail f, _ => .fail f

/-- `mapFail(r, fn)`:
`isFail(r) ? fail(fn(r.error), r.title, r.message, r.stackTrace) : r`. -/
def mapFail : TurboResponse E T → (E → E) → TurboResponse E T
  | .fail f, fn => .fail ⟨fn f.error, f.stackTrace, f.title, f.message⟩
  | .success s, _ => .success s

/-- `unwrap(r)`: returns `r.result` on Success; on Fail performs
`throw r.error`, modelled as `Except.error` carrying the stored error
value itself. -/
def unwrap : TurboResponse E T → Except E T
  | .success s => .ok s.result
  | .fail f => .error f.error

/-- `unwrapOr(r, defaultValue)`. -/
def unwrapOr : TurboResponse E T → T → T
  | .success s, _ => s.result
  | .fail _, d => d

/-- `unwrapOrCompute(r, compute)`. -/
def unwrapOrCompute : TurboResponse E T → (Unit → T) → T
  | .success s, _ => s.result
  | .fail _, compute => compute ()

/-- `recover(r, fn)`: `isFail(r) ? fn(r.error) : r`. -/
def recover : TurboResponse E T → (E → TurboResponse E T) → TurboResponse E T
  | .fail f, fn => fn f.error
  | .success s, _ => .success s

/-- `ensure(r, predicate, error)`:
`isSuccess(r) && !predicate(r.result) ? fail(error, r.title, r.message) : r`.
The `fail` call supplies no stackTrace. -/
def ensure : TurboResponse E T → (T → Bool) → E → TurboResponse E T
  | .success s, predicate, error =>
      if !predicate s.result then .fail ⟨error, none, s.title, s.message⟩
      else .success s
  | .fail f, _, _ => .fail f

/-- `swap(r)`: Success becomes a Fail whose error is the former result;
Fail becomes a Success whose result is the former error value. -/
def swap : TurboResponse E E → TurboResponse E E
  | .success s => .fail ⟨s.result, none, s.title, s.message⟩
  | .fail f => .success ⟨f.error, f.title, f.message⟩

end TurboResponse

/-- The loop of `sequence`: iterates `responses`, returning the first Fail
record unchanged, otherwise pushing each `response.result` onto `results`. -/
def sequenceGo : List (TurboResponse E T) → List T → TurboResponse E (List T)
  | [], results => .success ⟨results, none, none⟩
  | r :: rest, results =>
    match r with
    | .fail f => .fail f
    | .success s => sequenceGo rest (results ++ [s.result])

/-- `sequence(responses)`: starts the loop with an empty `results` array. -/
def sequence (responses : List (TurboResponse E T)) : TurboResponse E (List T) :=
  sequenceGo responses []

/-- The loop of `traverse`: for each item awaits `fn(item)`; the first Fail
record is returned unchanged, otherwise `response.result` is pushed. -/
def traverseGo (fn : T → TurboResponse E R) :
    List T → List R → TurboResponse E (List R)
  | [], results => .success ⟨results, none, none⟩
  | i :: rest, results =>
    match fn i with
    | .fail f => .fail f
    | .success s => traverseGo fn rest (results ++ [s.result])

/-- `traverse(items, fn)`: starts the loop with an empty `results` array. -/
def traverse (items : List T) (fn : T → TurboResponse E R) :
    TurboResponse E (List R) :=
  traverseGo fn items []

/-- Instrumentation of the `traverse` loop: the list of items on which
`fn` is invoked, in invocation order. Each loop iteration invokes `fn`
on its item exactly once; the loop continues past an item only when that
item's response is a Success. -/
def traverseCalls (items : List T) (fn : T → TurboResponse E R) : List T :=
  match items with
  | [] => []
  | i :: rest =>
    match fn i with
    | .fail _ => [i]
    | .success _ => i :: traverseCalls rest fn

/-- The handlers object of `maybeWhen`: optional `success` and `fail`
handlers and a mandatory `orElse`. -/
structure MaybeHandlers (E T R : Type) where
  success : Option (Success T → R)
  fail : Option (Fail E → R)
  orElse : Unit → R

/-- `maybeWhen(response, handlers)`:
`if (isSuccess(response) && handlers.success) return handlers.success(response);`
`if (isFail(response) && handlers.fail) return handlers.fail(response);`
`return handlers.orElse();`. -/
def maybeWhen (response : TurboResponse E T) (handlers : MaybeHandlers E T R) : R :=
  match response, handlers.success, handlers.fail with
  | .success s, some h, _ => h s
  | .fail f, _, some h => h f
  | .success _, none, _ => handlers.orElse ()
  | .fail _, _, none => handlers.orElse ()

/-! Exception-semantics versions of the combinators. A caller-supplied
function that may perform a raw throw/rejection (outside the Result
protocol) has result type `Except X _`; each body is the monadic
translation of the TypeScript source, which contains no try/catch. -/

/-- `andThen` with a possibly-throwing `fn`. -/
def andThenT : TurboResponse E T → (T → Except X (TurboResponse E R)) →
    Except X (TurboResponse E R)
  | .success s, fn => fn s.result
  | .fail f, _ => .ok (.fail f)

/-- `andThenAsync` with a possibly-rejecting `fn`; the awaited promise is
modelled by the same `Except` value, so the body coincides with
`andThenT`. -/
def andThenAsyncT : TurboResponse E T → (T → Except X (TurboResponse E R)) →
    Except X (TurboResponse E R)
  | .success s, fn => fn s.result
  | .fail f, _ => .ok (.fail f)

/-- `mapSuccess` with a possibly-throwing `fn`. -/
def mapSuccessT : TurboResponse E T → (T → Except X R) →
    Except X (TurboResponse E R)
  | .success s, fn => do
      let v ← fn s.result
      return .success ⟨v, s.title, s.message⟩
  | .fail f, _ => .ok (.fail f)

/-- `mapFail` with a possibly-throwing `fn`. -/
def mapFailT : TurboResponse E T → (E → Except X E) →
    Except X (TurboResponse E T)
  | .fail f, fn => do
      let e ← fn f.error
      return .fail ⟨e, f.stackTrace, f.title, f.message⟩
  | .success s, _ => .ok (.success s)

/-- `recover` with a possibly-throwing `fn`. -/
def recoverT : TurboResponse E T → (E → Except X (TurboResponse E T)) →
    Except X (TurboResponse E T)
  | .fail f, fn => fn f.error
  | .success s, _ => .ok (.success s)

/-- `recoverAsync` with a possibly-rejecting `fn`. -/
def recoverAsyncT : TurboResponse E T → (E → Except X (TurboResponse E T)) →
    Except X (TurboResponse E T)
  | .fail f, fn => fn f.error
  | .success s, _ => .ok (.success s)

/-- `ensure` with a possibly-throwing `predicate`; `&&` short-circuits,
so the predicate is only evaluated on a Success. -/
def ensureT : TurboResponse E T → (T → Except X Bool) → E →
    Except X (TurboResponse E T)
  | .success s, predicate, error => do
      let b ← predicate s.result
      return if !b then .fail ⟨error, none, s.title, s.message⟩ else .success s
  | .fail f, _, _ => .ok (.fail f)

/-- The `traverse` loop with a possibly-rejecting `fn`. -/
def traverseGoT (fn : T → Except X (TurboResponse E R)) :
    List T → List R → Except X (TurboResponse E (List R))
  | [], results => .ok (.success ⟨results, none, none⟩)
  | i :: rest, results => do
      let response ← fn i
      match response with
      | .fail f => return .fail f
      | .success s => traverseGoT fn rest (results ++ [s.result])

/-- `traverse` with a possibly-rejecting `fn`. -/
def traverseT (items : List T) (fn : T → Except X (TurboResponse E R)) :
    Except X (TurboResponse E (List R)) :=
  traverseGoT fn items []

/-! The `TurboException` class. -/

/-- The options object of the `TurboException` constructor. -/
structure TurboExceptionOptions (E : Type) where
  error : Option E
  title : Option String
  message : Option String
  stackTrace : Option String
deriving DecidableEq, Repr

/-- `options.message || 'An error occurred'`: the JavaScript falsy-or;
the only falsy string is the empty string. -/
def messageOrDefault : Option String → String
  | some m => if m = "" then "An error occurred" else m
  | none => "An error occurred"

/-- A constructed `TurboException` instance: its read-only fields. The
V8-only `Error.captureStackTrace` side effect has no observable field
here and is not modelled. -/
structure TurboException (E : Type) where
  error : Option E
  title : Option String
  message : String
  stackTrace : Option String
  name : String
deriving DecidableEq, Repr

/-- The `TurboException` constructor: stores `options.error`,
`options.title`, `options.message || 'An error occurred'` and
`options.stackTrace`, and sets `name` to `'TurboException'`. -/
def turboException (options : TurboExceptionOptions E) : TurboException E :=
  ⟨options.error, options.title, messageOrDefault options.message,
   options.stackTrace, "TurboException"⟩

/-- `get hasTitle()`: `this.title !== undefined && this.title !== null`. -/
def TurboException.hasTitle (e : TurboException E) : Bool :=
  e.title.isSome

/-- `get hasMessage()`:
`this.message !== undefined && this.message !== null && this.message !== ''`;
the stored message is a definite string, so only the emptiness test can
fail. -/
def TurboException.hasMessage (e : TurboException E) : Bool :=
  e.message != ""

/-- `get hasError()`: `this.error !== undefined && this.error !== null`. -/
def TurboException.hasError (e : TurboException E) : Bool :=
  e.error.isSome

/-! Helper lemmas about the `sequence` and `traverse` loops. -/

theorem sequenceGo_all_success (rs : List (TurboResponse E T)) (acc : List T)
    (h : ∀ r ∈ rs, r.isFail = false) :
    sequenceGo rs acc
      = .success ⟨acc ++ rs.filterMap TurboResponse.getResult, none, none⟩ := by
  induction rs generalizing acc with
  | nil => simp [sequenceGo]
  | cons r rest ih =>
    cases r with
    | fail f =>
      exact absurd (h _ (List.mem_cons_self _ _)) (by simp [TurboResponse.isFail])
    | success s =>
      rw [sequenceGo, ih _ fun r hr => h r (List.mem_cons_of_mem _ hr)]
      simp [TurboResponse.getResult]

theorem sequenceGo_first_fail (pre : List (TurboResponse E T)) (f : Fail E)
    (post : List (TurboResponse E T)) (acc : List T)
    (h : ∀ r ∈ pre, r.isFail = false) :
    sequenceGo (pre ++ .fail f :: post) acc = .fail f := by
  induction pre generalizing acc with
  | nil => simp [sequenceGo]
  | cons r rest ih =>
    cases r with
    | fail g =>
      exact absurd (h _ (List.mem_cons_self _ _)) (by simp [TurboResponse.isFail])
    | success s =>
      rw [List.cons_append, sequenceGo]
      exact ih _ fun r hr => h r (List.mem_cons_of_mem _ hr)

theorem traverseGo_all_success (fn : T → TurboResponse E R) (items : List T)
    (acc : List R) (h : ∀ y ∈ items, (fn y).isFail = false) :
    traverseGo fn items acc
      = .success ⟨acc ++ (items.map fn).filterMap TurboResponse.getResult,
                  none, none⟩ := by
  induction items generalizing acc with
  | nil => simp [traverseGo]
  | cons i rest ih =>
    have hi := h _ (List.mem_cons_self _ _)
    cases hfn : fn i with
    | fail f => rw [hfn] at hi; exact absurd hi (by simp [TurboResponse.isFail])
    | success s =>
      rw [traverseGo, hfn]
      show traverseGo fn rest (acc ++ [s.result]) = _
      rw [ih _ fun y hy => h y (List.mem_cons_of_mem _ hy)]
      simp [hfn, TurboResponse.getResult]

theorem traverseCalls_all_success (fn : T → TurboResponse E R) (items : List T)
    (h : ∀ y ∈ items, (fn y).isFail = false) :
    traverseCalls items fn = items := by
  induction items with
  | nil => rfl
  | cons i rest ih =>
    have hi := h _ (List.mem_cons_self _ _)
    cases hfn : fn i with
    | fail f => rw [hfn] at hi; exact absurd hi (by simp [TurboResponse.isFail])
    | success s =>
      rw [traverseCalls, hfn]
      show i :: traverseCalls rest fn = i :: rest
      exact congrArg (i :: ·) (ih fun y hy => h y (List.mem_cons_of_mem _ hy))

theorem traverseGo_first_fail (fn : T → TurboResponse E R) (pre : List T)
    (x : T) (post : List T) (f : Fail E) (acc : List R)
    (hpre : ∀ y ∈ pre, (fn y).isFail = false) (hx : fn x = .fail f) :
    traverseGo fn (pre ++ x :: post) acc = .fail f := by
  induction pre generalizing acc with
  | nil => rw [List.nil_append, traverseGo, hx]
  | cons i rest ih =>
    have hi := hpre _ (List.mem_cons_self _ _)
    cases hfn : fn i with
    | fail g => rw [hfn] at hi; exact absurd hi (by simp [TurboResponse.isFail])
    | success s =>
      rw [List.cons_append, traverseGo, hfn]
      show traverseGo fn (rest ++ x :: post) (acc ++ [s.result]) = _
      exact ih _ fun y hy => hpre y (List.mem_cons_of_mem _ hy)

theorem traverseCalls_first_fail (fn : T → TurboResponse E R) (pre : List T)
    (x : T) (post : List T) (f : Fail E)
    (hpre : ∀ y ∈ pre, (fn y).isFail = false) (hx : fn x = .fail f) :
    traverseCalls (pre ++ x :: post) fn = pre ++ [x] := by
  induction pre with
  | nil => rw [List.nil_append, traverseCalls, hx]; rfl
  | cons i rest ih =>
    have hi := hpre _ (List.mem_cons_self _ _)
    cases hfn : fn i with
    | fail g => rw [hfn] at hi; exact absurd hi (by simp [TurboResponse.isFail])
    | success s =>
      rw [List.cons_append, traverseCalls, hfn]
      show i :: traverseCalls (rest ++ x :: post) fn = i :: (rest ++ [x])
      exact congrArg (i :: ·) (ih fun y hy => hpre y (List.mem_cons_of_mem _ hy))

/-- C1: `sequence` scans in input order; at the first Fail element it
returns that very Fail record (identical error/title/message/stackTrace);
with no Fail it returns Success of the payloads in input order, and the
empty list yields Success of the empty list. -/
theorem sequence_correct (rs : List (TurboResponse E T)) :
    ((∀ r ∈ rs, r.isFail = false) →
        sequence rs = .success ⟨rs.filterMap TurboResponse.getResult, none, none⟩)
    ∧ (∀ pre (f : Fail E) post, rs = pre ++ .fail f :: post →
        (∀ r ∈ pre, r.isFail = false) → sequence rs = .fail f) := by
  constructor
  · intro h
    simpa [sequence] using sequenceGo_all_success rs [] h
  · rintro pre f post rfl h
    exact sequenceGo_first_fail pre f post [] h

/-- Witness for C1: `sequence` on all-success, first-Fail, and empty
inputs, evaluated concretely. -/
theorem sequence_correct_witness :
    sequence [TurboResponse.success ⟨1, none, none⟩,
              TurboResponse.success ⟨2, none, none⟩,
              TurboResponse.success ⟨3, none, none⟩]
      = TurboResponse.success (E := String) ⟨[1, 2, 3], none, none⟩
    ∧ sequence [TurboResponse.success ⟨1, none, none⟩,
                TurboResponse.fail ⟨"boom", none, none, none⟩,
                TurboResponse.success ⟨3, none, none⟩]
      = TurboResponse.fail (T := List Nat) ⟨"boom", none, none, none⟩
    ∧ sequence ([] : List (TurboResponse String Nat))
      = .success ⟨[], none, none⟩ := by
  refine ⟨?_, ?_, ?_⟩
  · exact (sequence_correct _).1 (by decide)
  · exact (sequence_correct _).2 [TurboResponse.success ⟨1, none, none⟩]
      ⟨"boom", none, none, none⟩ [TurboResponse.success ⟨3, none, none⟩]
      rfl (by decide)
  · exact (sequence_correct _).1 (by decide)

/-- C2: `traverse` invokes `fn` on the items in input order; it reaches a
later item only when every earlier item's response was a Success; at the
first Fail it returns that Fail record and invokes `fn` on no later item;
with no Fail it returns Success of all results in input order. -/
theorem traverse_correct (items : List T) (fn : T → TurboResponse E R) :
    ((∀ y ∈ items, (fn y).isFail = false) →
        traverse items fn
          = .success ⟨(items.map fn).filterMap TurboResponse.getResult, none, none⟩
        ∧ traverseCalls items fn = items)
    ∧ (∀ pre x post (f : Fail E), items = pre ++ x :: post →
        (∀ y ∈ pre, (fn y).isFail = false) → fn x = .fail f →
        traverse items fn = .fail f ∧ traverseCalls items fn = pre ++ [x]) := by
  constructor
  · intro h
    exact ⟨by simpa [traverse] using traverseGo_all_success fn items [] h,
           traverseCalls_all_success fn items h⟩
  · rintro pre x post f rfl hpre hx
    exact ⟨traverseGo_first_fail fn pre x post f [] hpre hx,
           traverseCalls_first_fail fn pre x post f hpre hx⟩

/-- Witness for C2: the spec's example `fn` failing on `2` stops after two
invocations and returns that Fail; an all-success `fn` maps every item. -/
theorem traverse_correct_witness :
    traverse [1, 2, 3]
        (fun i => if i = 2 then .fail ⟨"bad", none, none, none⟩
                  else .success ⟨i, none, none⟩)
      = TurboResponse.fail (T := List Nat) ⟨"bad", none, none, none⟩
    ∧ traverseCalls [1, 2, 3]
        (fun i => if i = 2 then TurboResponse.fail (E := String) (T := Nat)
                      ⟨"bad", none, none, none⟩
                  else .success ⟨i, none, none⟩)
      = [1, 2]
    ∧ traverse [1, 2, 3]
        (fun i => TurboResponse.success (E := String) ⟨i * 2, none, none⟩)
      = .success ⟨[2, 4, 6], none, none⟩ := by
  have h2 := (traverse_correct [1, 2, 3]
      (fun i => if i = 2 then TurboResponse.fail (E := String) (T := Nat)
            ⟨"bad", none, none, none⟩
          else .success ⟨i, none, none⟩)).2
      [1] 2 [3] ⟨"bad", none, none, none⟩ rfl (by decide) (by decide)
  have h1 := (traverse_correct [1, 2, 3]
      (fun i => TurboResponse.success (E := String) ⟨i * 2, none, none⟩)).1
      (by decide)
  exact ⟨h2.1, h2.2, by simpa using h1.1⟩

/-- C3: on a Fail input, `andThen` and `mapSuccess` return the original
Fail record unchanged (same error/title/message/stackTrace); the supplied
function is never invoked — even a throwing one raises nothing. -/
theorem fail_short_circuits (f : Fail E) (fn : T → TurboResponse E R)
    (g : T → R) (fnT : T → Except X (TurboResponse E R)) (gT : T → Except X R) :
    TurboResponse.andThen (.fail f) fn = .fail f
    ∧ TurboResponse.mapSuccess (.fail f) g = .fail f
    ∧ andThenT (.fail f) fnT = .ok (.fail f)
    ∧ mapSuccessT (.fail f) gT = .ok (.fail f) :=
  ⟨rfl, rfl, rfl, rfl⟩

/-- C4: `andThen` is associative:
`andThen(andThen(r, f), g) = andThen(r, x => andThen(f(x), g))`. -/
theorem andThen_assoc (r : TurboResponse E T) (f : T → TurboResponse E R)
    (g : R → TurboResponse E S) :
    TurboResponse.andThen (TurboResponse.andThen r f) g
      = TurboResponse.andThen r (fun x => TurboResponse.andThen (f x) g) := by
  cases r <;> rfl

/-- C5: `unwrap` returns the payload of a Success and, on a Fail, throws
the stored error value itself — the exact value in the `error` field, not
wrapped in any exception object. -/
theorem unwrap_correct (s : Success T) (f : Fail E) :
    TurboResponse.unwrap (E := E) (.success s) = .ok s.result
    ∧ TurboResponse.unwrap (T := T) (.fail f) = .error f.error :=
  ⟨rfl, rfl⟩

theorem traverseGoT_raw_throw (fn : T → Except X (TurboResponse E R))
    (pre : List T) (t : T) (post : List T) (x : X) (acc : List R)
    (hpre : ∀ y ∈ pre, ∃ sy : Success R, fn y = .ok (.success sy))
    (ht : fn t = .error x) :
    traverseGoT fn (pre ++ t :: post) acc = .error x := by
  induction pre generalizing acc with
  | nil => rw [List.nil_append, traverseGoT, ht]; rfl
  | cons i tail ih =>
    obtain ⟨sy, hy⟩ := hpre _ (List.mem_cons_self _ _)
    rw [List.cons_append, traverseGoT, hy]
    show traverseGoT fn (tail ++ t :: post) (acc ++ [sy.result]) = _
    exact ih _ fun y hy2 => hpre y (List.mem_cons_of_mem _ hy2)

/-- C6: when a caller-supplied function (or predicate) throws instead of
returning a Result, each combinator propagates the raised value to its
caller unmodified — nothing is caught or converted to a Fail. -/
theorem raw_throw_propagates (s : Success T) (f : Fail E) (x : X)
    (t : T) (pre post : List T) :
    (∀ fn : T → Except X (TurboResponse E R), fn s.result = .error x →
        andThenT (.success s) fn = .error x)
    ∧ (∀ fn : T → Except X (TurboResponse E R), fn s.result = .error x →
        andThenAsyncT (.success s) fn = .error x)
    ∧ (∀ fn : T → Except X R, fn s.result = .error x →
        mapSuccessT (E := E) (.success s) fn = .error x)
    ∧ (∀ fn : E → Except X E, fn f.error = .error x →
        mapFailT (T := T) (.fail f) fn = .error x)
    ∧ (∀ fn : E → Except X (TurboResponse E T), fn f.error = .error x →
        recoverT (.fail f) fn = .error x)
    ∧ (∀ fn : E → Except X (TurboResponse E T), fn f.error = .error x →
        recoverAsyncT (.fail f) fn = .error x)
    ∧ (∀ (predicate : T → Except X Bool) (e : E), predicate s.result = .error x →
        ensureT (.success s) predicate e = .error x)
    ∧ (∀ fn : T → Except X (TurboResponse E R),
        (∀ y ∈ pre, ∃ sy : Success R, fn y = .ok (.success sy)) →
        fn t = .error x →
        traverseT (pre ++ t :: post) fn = .error x) := by
  refine ⟨?_, ?_, ?_, ?_, ?_, ?_, ?_, ?_⟩
  · intro fn h; rw [andThenT, h]
  · intro fn h; rw [andThenAsyncT, h]
  · intro fn h; rw [mapSuccessT, h]; rfl
  · intro fn h; rw [mapFailT, h]; rfl
  · intro fn h; rw [recoverT, h]
  · intro fn h; rw [recoverAsyncT, h]
  · intro predicate e h; rw [ensureT, h]; rfl
  · intro fn hpre ht
    rw [traverseT]
    exact traverseGoT_raw_throw fn pre t post x [] hpre ht

/-- Witness for C6: each combinator applied where the supplied function
throws `"boom"` evaluates to that very raised value. -/
theorem raw_throw_propagates_witness :
    andThenT (TurboResponse.success (E := Nat) ⟨(1 : Nat), none, none⟩)
        (fun _ => (.error "boom" : Except String (TurboResponse Nat Nat)))
      = .error "boom"
    ∧ andThenAsyncT (TurboResponse.success (E := Nat) ⟨(1 : Nat), none, none⟩)
        (fun _ => (.error "boom" : Except String (TurboResponse Nat Nat)))
      = .error "boom"
    ∧ mapSuccessT (TurboResponse.success (E := Nat) ⟨(1 : Nat), none, none⟩)
        (fun _ => (.error "boom" : Except String Nat)) = .error "boom"
    ∧ mapFailT (T := Nat) (TurboResponse.fail ⟨(7 : Nat), none, none, none⟩)
        (fun _ => (.error "boom" : Except String Nat)) = .error "boom"
    ∧ recoverT (TurboResponse.fail (T := Nat) ⟨(7 : Nat), none, none, none⟩)
        (fun _ => (.error "boom" : Except String (TurboResponse Nat Nat)))
      = .error "boom"
    ∧ recoverAsyncT (TurboResponse.fail (T := Nat) ⟨(7 : Nat), none, none, none⟩)
        (fun _ => (.error "boom" : Except String (TurboResponse Nat Nat)))
      = .error "boom"
    ∧ ensureT (TurboResponse.success (E := Nat) ⟨(1 : Nat), none, none⟩)
        (fun _ => (.error "boom" : Except String Bool)) 0 = .error "boom"
    ∧ traverseT [4, 5, 6]
        (fun y => if y = 5 then (.error "boom" : Except String (TurboResponse Nat Nat))
                  else .ok (.success ⟨y, none, none⟩)) = .error "boom" := by
  have h := raw_throw_propagates (T := Nat) (E := Nat) (X := String) (R := Nat)
      ⟨1, none, none⟩ ⟨7, none, none, none⟩ "boom" 5 [4] [6]
  refine ⟨h.1 _ rfl, h.2.1 _ rfl, h.2.2.1 _ rfl, h.2.2.2.1 _ rfl,
          h.2.2.2.2.1 _ rfl, h.2.2.2.2.2.1 _ rfl, h.2.2.2.2.2.2.1 _ 0 rfl, ?_⟩
  exact h.2.2.2.2.2.2.2 _
      (by intro y hy; simp at hy; subst hy; exact ⟨⟨4, none, none⟩, rfl⟩) rfl

/-- C7: `maybeWhen` invokes the matching optional handler on the full
variant when it is supplied, and invokes the mandatory `orElse` when that
handler is absent — even on a Success carrying a valid payload. -/
theorem maybeWhen_correct (s : Success T) (f : Fail E)
    (hs : Success T → R) (hf : Fail E → R)
    (os : Option (Success T → R)) (og : Option (Fail E → R)) (oe : Unit → R) :
    maybeWhen (.success s) ⟨some hs, og, oe⟩ = hs s
    ∧ maybeWhen (.fail f) ⟨os, some hf, oe⟩ = hf f
    ∧ maybeWhen (.success s) ⟨none, og, oe⟩ = oe ()
    ∧ maybeWhen (.fail f) ⟨os, none, oe⟩ = oe () :=
  ⟨rfl, rfl, rfl, rfl⟩

/-- C8: `ensure` builds a new Fail from the given error with the
Success's title/message and no stackTrace exactly when the payload fails
the predicate; otherwise the input comes back unchanged, and on a Fail
the predicate is never evaluated — even a throwing one raises nothing. -/
theorem ensure_correct (s : Success T) (f : Fail E) (predicate : T → Bool)
    (e : E) (pT : T → Except X Bool) :
    (predicate s.result = false →
        TurboResponse.ensure (.success s) predicate e
          = .fail ⟨e, none, s.title, s.message⟩)
    ∧ (predicate s.result = true →
        TurboResponse.ensure (.success s) predicate e = .success s)
    ∧ TurboResponse.ensure (.fail f) predicate e = .fail f
    ∧ ensureT (.fail f) pT e = .ok (.fail f) := by
  refine ⟨?_, ?_, rfl, rfl⟩
  · intro h; simp [TurboResponse.ensure, h]
  · intro h; simp [TurboResponse.ensure, h]

/-- Witness for C8: the spec's age example, with a title and message on
the input Success. -/
theorem ensure_correct_witness :
    TurboResponse.ensure (E := String)
        (.success ⟨10, some "t", some "m"⟩) (fun v => decide (18 ≤ v)) "too young"
      = .fail ⟨"too young", none, some "t", some "m"⟩
    ∧ TurboResponse.ensure (E := String)
        (.success ⟨20, some "t", some "m"⟩) (fun v => decide (18 ≤ v)) "too young"
      = .success ⟨20, some "t", some "m"⟩
    ∧ TurboResponse.ensure (T := Nat)
        (.fail ⟨"already failed", none, none, none⟩) (fun v => decide (18 ≤ v))
        "too young"
      = .fail ⟨"already failed", none, none, none⟩ := by
  refine ⟨?_, ?_, ?_⟩
  · exact (ensure_correct (X := Nat) ⟨10, some "t", some "m"⟩
      ⟨"already failed", none, none, none⟩ (fun v => decide (18 ≤ v)) "too young"
      (fun _ => .ok true)).1 (by decide)
  · exact (ensure_correct (X := Nat) ⟨20, some "t", some "m"⟩
      ⟨"already failed", none, none, none⟩ (fun v => decide (18 ≤ v)) "too young"
      (fun _ => .ok true)).2.1 (by decide)
  · exact (ensure_correct (X := Nat) ⟨10, some "t", some "m"⟩
      ⟨"already failed", none, none, none⟩ (fun v => decide (18 ≤ v)) "too young"
      (fun _ => .ok true)).2.2.1

/-- C9: with no message supplied the constructor stores the fallback
`"An error occurred"`; `hasTitle` is true iff a title is set, `hasError`
iff the error is set, and `hasMessage` iff the stored message is
non-empty — hence true by default. -/
theorem turboException_queries (options : TurboExceptionOptions E) :
    (options.message = none →
        (turboException options).message = "An error occurred"
        ∧ (turboException options).hasMessage = true)
    ∧ (turboException options).hasTitle = options.title.isSome
    ∧ (turboException options).hasError = options.error.isSome
    ∧ ((turboException options).hasMessage = true
        ↔ (turboException options).message ≠ "") := by
  refine ⟨?_, rfl, rfl, ?_⟩
  · intro h
    constructor
    · simp [turboException, messageOrDefault, h]
    · simp [turboException, TurboException.hasMessage, messageOrDefault, h]
  · simp [TurboException.hasMessage]

/-- Witness for C9: a construction with a title and no message. -/
theorem turboException_queries_witness :
    (turboException (⟨none, some "t", none, none⟩ : TurboExceptionOptions Nat)).message
      = "An error occurred"
    ∧ (turboException (⟨none, some "t", none, none⟩ : TurboExceptionOptions Nat)).hasMessage
      = true
    ∧ (turboException (⟨none, some "t", none, none⟩ : TurboExceptionOptions Nat)).hasTitle
      = true
    ∧ (turboException (⟨none, some "t", none, none⟩ : TurboExceptionOptions Nat)).hasError
      = false := by
  have h := turboException_queries (⟨none, some "t", none, none⟩ : TurboExceptionOptions Nat)
  exact ⟨(h.1 rfl).1, (h.1 rfl).2, h.2.1, h.2.2.1⟩

/-- C10: supplying the empty string as the message also stores the
fallback `"An error occurred"` (the falsy-or does not distinguish absent
from empty), and `hasMessage` is true for every constructed instance. -/
theorem turboException_emptyMessage (options : TurboExceptionOptions E) :
    (options.message = some "" →
        (turboException options).message = "An error occurred")
    ∧ (turboException options).hasMessage = true := by
  constructor
  · intro h
    simp [turboException, messageOrDefault, h]
  · show (messageOrDefault options.message != "") = true
    match options.message with
    | none => decide
    | some m =>
      by_cases hm : m = ""
      · simp [messageOrDefault, hm]
      · simp [messageOrDefault, hm]

/-- Witness for C10: constructing with the explicit empty string stores
the fallback text, and `hasMessage` holds. -/
theorem turboException_emptyMessage_witness :
    (turboException (⟨none, none, some "", none⟩ : TurboExceptionOptions Nat)).message
      = "An error occurred"
    ∧ (turboException (⟨none, none, some "", none⟩ : TurboExceptionOptions Nat)).hasMessage
      = true :=
  ⟨(turboException_emptyMessage _).1 rfl, (turboException_emptyMessage _).2⟩

end Turbo
